import Mathlib

/-!
Verification of `optimize_courses.py` (rishu_optimizer): a shallow embedding of
the course-timetable optimizer's data model and algorithms, together with
theorems settling the specification's claims about it.

Modelling conventions:
* Python sets of slots are modelled as lists used only through membership.
* Python `int` becomes `Int` (course credits, read with `isdigit`, become `Nat`).
* Python `float` arithmetic (temperature ratio, `random.random()`) is modelled
  exactly over `ℚ`; the random source is injected as a function argument, one
  fresh draw function per call site, mirroring the single global random stream.
* `sorted(..., key=k, reverse=True)` is a stable descending sort; any stable
  sort computes the same list, so we use a structurally recursive stable
  insertion sort.
* Display-only `Course` fields (titles, classroom, instructor, mode, lang,
  link, the raw schedule string) are omitted: no algorithm reads them.
  `subject` and `level` are the fields derived by `parse_course_no`.
-/

namespace Rishu

/-- A course as loaded from the catalog: `no` is the course identifier,
`schedule` the set of (weekday, period, isException) triples produced by
`parse_schedule`, `subject`/`level` the fields derived by `parse_course_no`. -/
structure Course where
  no : String
  credits : Nat
  schedule : List (String × Nat × Bool)
  subject : String
  level : Int
deriving Repr, DecidableEq

/-- Occupied (weekday, period) pairs of a course, the exception flag dropped:
the two set comprehensions inside `Course.conflicts_with`. -/
def slots (c : Course) : List (String × Nat) :=
  c.schedule.map (fun s => (s.1, s.2.1))

/-- Model of `Course.conflicts_with`: the slot sets intersect, ignoring the
exception flag (`not my_slots.isdisjoint(other_slots)`). -/
def conflicts_with (a b : Course) : Bool :=
  (slots a).any (fun s => decide (s ∈ slots b))

/-- Model of `PatternBasedOptimizer._check_conflict`: some pair of distinct
positions `i < j` of the timetable conflicts. -/
def check_conflict : List Course → Bool
  | [] => false
  | c :: rest => rest.any (fun d => conflicts_with c d) || check_conflict rest

/-- One entry of the pattern library (`schedule_patterns.json`): the parsed
slot list and the course identifiers sharing that slot signature. -/
structure PatternData where
  schedule : List (String × Nat)
  courses : List String
deriving Repr, DecidableEq

/-- The optimizer's configuration as unpacked by
`PatternBasedOptimizer.__init__` from `user_settings.json`, together with the
catalog and the pattern library. `excludedExactNos`/`excludedPrefixes` are the
two halves of the `excluded_nos` split; the level-band fields carry the
`course_level_constraints` values with their `get` defaults already applied. -/
structure Config where
  allCourses : List Course
  mandatoryNos : List String
  maxCredits : Int
  minCredits : Int
  desiredNos : List String
  unavailableSlots : List (String × Nat)
  offDays : List String
  excludedExactNos : List String
  excludedPrefixes : List String
  majorCodes : List String
  majorMinLevel : Int
  majorMaxLevel : Int
  otherMinLevel : Int
  otherMaxLevel : Int
  prioritySubjects : List String
  levelPriorities : List (String × Int)
  temperature : Int
  maxCandidates : Nat
  patterns : List (String × PatternData)
deriving Repr

/-- Model of `self.course_map = {c.no: c for c in all_courses}`: a later
course with the same identifier overrides an earlier one, so we look up the
last matching catalog entry. -/
def courseMap (cfg : Config) (no : String) : Option Course :=
  cfg.allCourses.reverse.find? (fun c => c.no == no)

/-- Model of `_get_courses_by_nos(self.mandatory_nos)`: the mandatory ids that
resolve in the catalog, in the order of `mandatoryNos`. -/
def mandatoryCourses (cfg : Config) : List Course :=
  cfg.mandatoryNos.filterMap (fun no => courseMap cfg no)

/-- Model of `self.mandatory_schedule`: all (weekday, period) pairs occupied
by mandatory courses. -/
def mandatorySchedule (cfg : Config) : List (String × Nat) :=
  (mandatoryCourses cfg).foldr (fun c acc => slots c ++ acc) []

/-- Model of `_is_course_valid`: not excluded (exactly or by subject), and
the level lies in the applicable subject-group band. -/
def is_course_valid (cfg : Config) (c : Course) : Bool :=
  if decide (c.no ∈ cfg.excludedExactNos) || decide (c.subject ∈ cfg.excludedPrefixes) then
    false
  else
    let mn := if decide (c.subject ∈ cfg.majorCodes) then cfg.majorMinLevel else cfg.otherMinLevel
    let mx := if decide (c.subject ∈ cfg.majorCodes) then cfg.majorMaxLevel else cfg.otherMaxLevel
    decide (mn ≤ c.level) && decide (c.level ≤ mx)

/-- Model of the score computed per course by `_score_courses`: base 1,
plus 10 for a prioritized subject, and for a subject with a configured
priority level, plus 5 on an exact level match, else plus 2 when the level is
within 100 of it (the `elif` makes the two bonuses mutually exclusive). -/
def scoreCourse (cfg : Config) (c : Course) : Int :=
  let base : Int := 1 + (if decide (c.subject ∈ cfg.prioritySubjects) then 10 else 0)
  match List.lookup c.subject cfg.levelPriorities with
  | none => base
  | some p => base + (if c.level = p then 5 else if (c.level - p).natAbs ≤ 100 then 2 else 0)

/-- Model of `self.course_scores.get(c.no, 0)`: the dictionary is keyed by
course identifier, a later catalog entry overriding an earlier one. -/
def courseScores (cfg : Config) (no : String) : Int :=
  match courseMap cfg no with
  | none => 0
  | some c => scoreCourse cfg c

/-- Model of `_is_schedule_allowed`: every slot must avoid the off days, and
(unless `ignoreUnavailable`) the unavailable slots, except that
`allowMandatoryOverride` lets an unavailable slot pass when a mandatory course
occupies it. -/
def is_schedule_allowed (cfg : Config) (scheduleItems : List (String × Nat × Bool))
    (ignoreUnavailable : Bool) (allowMandatoryOverride : Bool) : Bool :=
  scheduleItems.all (fun s =>
    !(decide (s.1 ∈ cfg.offDays)) &&
      (ignoreUnavailable ||
        !(decide ((s.1, s.2.1) ∈ cfg.unavailableSlots)) ||
          (allowMandatoryOverride && decide ((s.1, s.2.1) ∈ mandatorySchedule cfg))))

/-- Stable insertion step for a descending sort: a new element goes after all
earlier elements with a strictly larger key and before equal keys, matching
the stability of Python's `sorted(..., reverse=True)`. -/
def insertByKeyDesc {α β : Type} [LinearOrder β] (key : α → β) (c : α) :
    List α → List α
  | [] => [c]
  | x :: xs => if key c < key x then x :: insertByKeyDesc key c xs else c :: x :: xs

/-- Stable descending sort by a key, extensionally equal to Python's stable
`sorted(..., key=key, reverse=True)`. -/
def sortByKeyDesc {α β : Type} [LinearOrder β] (key : α → β) (l : List α) : List α :=
  l.foldr (insertByKeyDesc key) []

/-- The sort key of `_prepare_candidates`: base score plus the
desired-course preference weighted by `1 - r` plus the random term weighted by
`r`, where `r` is the temperature ratio and `u c` models the fresh
`random.random()` draw for the course. -/
def sortKey (cfg : Config) (u : Course → ℚ) (c : Course) : ℚ :=
  let r : ℚ := (cfg.temperature : ℚ) / 100
  (courseScores cfg c.no : ℚ) +
    (1 - r) * (if decide (c.no ∈ cfg.desiredNos) then 100 else 0) +
    r * u c * 20

/-- Model of `_prepare_candidates`: at temperature ratio 0 with a non-empty
desired set, restrict to desired courses; then sort descending by `sortKey`. -/
def prepareCandidates (cfg : Config) (u : Course → ℚ) (courses : List Course) :
    List Course :=
  let r : ℚ := (cfg.temperature : ℚ) / 100
  let cs :=
    if cfg.desiredNos ≠ [] ∧ r = 0 then
      courses.filter (fun c => decide (c.no ∈ cfg.desiredNos))
    else courses
  sortByKeyDesc (sortKey cfg u) cs

/-- Sum of the credits of a timetable (`sum(c.credits for c in ...)`). -/
def sumCredits (l : List Course) : Nat :=
  (l.map (fun c => c.credits)).sum

/-- The inclusive credit band test `min_credits <= n <= max_credits`. -/
def creditBand (cfg : Config) (n : Nat) : Bool :=
  decide (cfg.minCredits ≤ (n : Int)) && decide ((n : Int) ≤ cfg.maxCredits)

/-- The mutable state of the `greedy_fill` loop: the current timetable, its
running credit total, and the satisfying snapshots collected so far. -/
structure FillState where
  timetable : List Course
  credits : Nat
  variations : List (List Course)
deriving Repr, DecidableEq

/-- One iteration of the `greedy_fill` loop body for a candidate course:
skip it unless its schedule is allowed, it fits the credit budget, and it
conflicts with nothing accepted so far; on acceptance, snapshot the timetable
whenever the running total satisfies the credit band. -/
def greedyStep (cfg : Config) (ignoreUnavailable : Bool) (st : FillState)
    (course : Course) : FillState :=
  if !(is_schedule_allowed cfg course.schedule ignoreUnavailable false) then st
  else if (((st.credits + course.credits : Nat) : Int) > cfg.maxCredits) then st
  else if check_conflict (st.timetable ++ [course]) then st
  else
    let tt := st.timetable ++ [course]
    let cr := st.credits + course.credits
    { timetable := tt
      credits := cr
      variations := if creditBand cfg cr then st.variations ++ [tt] else st.variations }

/-- The candidate pool of `greedy_fill`: every catalog course not already in
the base timetable (by identifier) that passes `_is_course_valid`. -/
def fillCandidatePool (cfg : Config) (base : List Course) : List Course :=
  cfg.allCourses.filter
    (fun c => !(decide (c.no ∈ base.map (fun x => x.no))) && is_course_valid cfg c)

/-- The state of `greedy_fill` before its loop: the base timetable, its
credits, and the base itself as a snapshot when it already satisfies the
credit band. -/
def initFillState (cfg : Config) (base : List Course) : FillState :=
  { timetable := base, credits := sumCredits base,
    variations := if creditBand cfg (sumCredits base) then [base] else [] }

/-- Model of the inner function `greedy_fill` of `_fill_remaining_credits`:
from the base timetable, consider every valid not-yet-included catalog course
in `_prepare_candidates` order (with `u` the injected random draws), and
return the final timetable together with all satisfying snapshots, the base
itself first when it already satisfies the band. -/
def greedyFill (cfg : Config) (u : Course → ℚ) (base : List Course)
    (ignoreUnavailable : Bool) : List Course × List (List Course) :=
  let final := (prepareCandidates cfg u (fillCandidatePool cfg base)).foldl
    (greedyStep cfg ignoreUnavailable) (initFillState cfg base)
  (final.timetable, final.variations)

/-- Model of `_fill_remaining_credits`: a strict pass honouring the
unavailable slots; if it records no satisfying variation, a relaxed pass that
ignores the unavailable slots, started from the strict pass's final timetable.
`u1`/`u2` are the fresh random draws of the two passes. -/
def fillRemainingCredits (cfg : Config) (u1 u2 : Course → ℚ)
    (initialTimetable : List Course) : List (List Course) :=
  let strict := greedyFill cfg u1 initialTimetable false
  if !strict.2.isEmpty then strict.2
  else (greedyFill cfg u2 strict.1 true).2

/-- Model of the per-pattern part of `_score_patterns`: resolve the pattern's
course ids in the catalog, drop unknown or invalid ones, order them with
`_prepare_candidates`, greedily keep a conflict-free subset, and return the
sum of the kept courses' scores together with the kept courses. -/
def scorePattern (cfg : Config) (u : Course → ℚ) (pd : PatternData) :
    Int × List Course :=
  let courses := pd.courses.filterMap (fun no =>
    match courseMap cfg no with
    | none => none
    | some c => if is_course_valid cfg c then some c else none)
  let courses := prepareCandidates cfg u courses
  let best := courses.foldl
    (fun best c => if check_conflict (best ++ [c]) then best else best ++ [c]) []
  ((best.map (fun c => courseScores cfg c.no)).sum, best)

/-- Model of `_score_patterns`: score every pattern, pattern `i` consuming the
draw function `us i`. -/
def scorePatterns (cfg : Config) (us : Nat → Course → ℚ) :
    List (String × Int × List Course) :=
  cfg.patterns.enum.map (fun p => (p.2.1, scorePattern cfg (us p.1) p.2.2))

/-- Model of `_select_best_patterns`: `none` when the mandatory courses
conflict (the Python version prints the error and returns `None`); otherwise
the keys of the patterns whose slots are allowed and disjoint from the
mandatory schedule, sorted by descending score (stable). -/
def selectBestPatterns (cfg : Config) (scored : List (String × Int × List Course)) :
    Option (List String) :=
  if check_conflict (mandatoryCourses cfg) then none
  else
    let valid := scored.filterMap (fun entry =>
      match List.lookup entry.1 cfg.patterns with
      | none => none
      | some pd =>
        let patSched := pd.schedule.map (fun s => (s.1, s.2, false))
        if is_schedule_allowed cfg patSched false false &&
            pd.schedule.all (fun s => !(decide (s ∈ mandatorySchedule cfg))) then
          some (entry.2.1, entry.1)
        else none)
    some ((sortByKeyDesc (fun v => v.1) valid).map (fun v => v.2))

/-- Model of `_build_initial_timetable`: start from the mandatory courses and
accept each resolved pattern course that fits the credit budget and conflicts
with nothing accepted so far. -/
def buildInitialTimetable (cfg : Config) (resolved : List Course) : List Course :=
  resolved.foldl
    (fun tt c =>
      if (((sumCredits tt + c.credits : Nat) : Int) > cfg.maxCredits) then tt
      else if check_conflict (tt ++ [c]) then tt
      else tt ++ [c])
    (mandatoryCourses cfg)

/-- The weekdays of the displayed grid in `run`. -/
def visibleDays : List String := ["月", "火", "水", "木", "金", "土"]

/-- The visual signature used by `run` for de-duplication: the (weekday,
period) pairs of the timetable restricted to the display window. -/
def visualSignature (tt : List Course) : List (String × Nat) :=
  tt.foldr (fun c acc =>
    (c.schedule.filterMap (fun s =>
      if decide (s.1 ∈ visibleDays) && decide (1 ≤ s.2.1) && decide (s.2.1 ≤ 7) then
        some (s.1, s.2.1)
      else none)) ++ acc) []

/-- Equality of visual signatures as finite sets (`frozenset` equality). -/
def sameSlotSet (a b : List (String × Nat)) : Bool :=
  a.all (fun s => decide (s ∈ b)) && b.all (fun s => decide (s ∈ a))

/-- The state of the candidate-collection loop of `run`: the signatures seen,
the unique candidates kept, and whether the `break` on reaching
`max_candidates` has fired. -/
structure DedupState where
  seen : List (List (String × Nat))
  acc : List (List Course)
  stopped : Bool
deriving Repr, DecidableEq

/-- One iteration of the inner loop of `run` over a fill variation: skip once
stopped, discard a duplicate signature, otherwise keep the candidate and stop
when `max_candidates` is reached. -/
def dedupStep (cfg : Config) (st : DedupState) (tt : List Course) : DedupState :=
  if st.stopped then st
  else
    let sig := visualSignature tt
    if st.seen.any (fun s => sameSlotSet s sig) then st
    else
      let acc := st.acc ++ [tt]
      { seen := st.seen ++ [sig], acc := acc,
        stopped := decide (cfg.maxCandidates ≤ acc.length) }

/-- One iteration of the outer candidate loop of `run` for the key at
position `jk.1` of the selected list: skip once stopped, otherwise fill the
pattern's initial timetable and de-duplicate its variations. The pattern at
position `j` consumes the draw functions `us (P + 2*j)` and `us (P + 2*j + 1)`,
`P` the number of patterns (the scoring stage consumed `us 0 .. us (P-1)`). -/
def runKeyStep (cfg : Config) (us : Nat → Course → ℚ)
    (scored : List (String × Int × List Course)) (st : DedupState)
    (jk : Nat × String) : DedupState :=
  if st.stopped then st
  else
    let resolved := match List.lookup jk.2 scored with
      | none => []
      | some sc => sc.2
    let vars := fillRemainingCredits cfg (us (cfg.patterns.length + 2 * jk.1))
      (us (cfg.patterns.length + 2 * jk.1 + 1)) (buildInitialTimetable cfg resolved)
    vars.foldl (dedupStep cfg) st

/-- The candidate-collection loop of `run`: for the selected pattern keys in
order, build the initial timetable, fill it, and de-duplicate the resulting
variations by visual signature until `max_candidates` candidates are kept. -/
def runCandidates (cfg : Config) (us : Nat → Course → ℚ) (keys : List String)
    (scored : List (String × Int × List Course)) : List (List Course) :=
  (keys.enum.foldl (runKeyStep cfg us scored)
    { seen := [], acc := [], stopped := false }).acc

/-- The observable outcome of `run`: which early return fired, whether the
mandatory-credit warning was printed, and the collected candidates. -/
structure RunResult where
  abortedNoPatterns : Bool
  mandatoryConflictAbort : Bool
  creditWarning : Bool
  fillStageRan : Bool
  candidates : List (List Course)
deriving Repr, DecidableEq

/-- Model of `run`: score the patterns, select the eligible ones (aborting
when none, which covers the mandatory-conflict error inside
`_select_best_patterns`), re-check the mandatory conflict, print (flag) the
over-credit warning without aborting, and collect de-duplicated candidates. -/
def run (cfg : Config) (us : Nat → Course → ℚ) : RunResult :=
  let scored := scorePatterns cfg us
  match selectBestPatterns cfg scored with
  | none =>
    { abortedNoPatterns := true, mandatoryConflictAbort := true,
      creditWarning := false, fillStageRan := false, candidates := [] }
  | some keys =>
    if keys.isEmpty then
      { abortedNoPatterns := true, mandatoryConflictAbort := false,
        creditWarning := false, fillStageRan := false, candidates := [] }
    else if check_conflict (mandatoryCourses cfg) then
      { abortedNoPatterns := false, mandatoryConflictAbort := true,
        creditWarning := false, fillStageRan := false, candidates := [] }
    else
      { abortedNoPatterns := false, mandatoryConflictAbort := false,
        creditWarning := decide ((sumCredits (mandatoryCourses cfg) : Int) > cfg.maxCredits),
        fillStageRan := true,
        candidates := runCandidates cfg us keys scored }

/-- Model of the swap-candidate detection of `_display_results` (the same
rule as the `list` command of `_edit_candidate`): a valid catalog course, not
in the timetable and with a different id than the member `c`, that conflicts
with `c` but with no other member. The display sorts this list by id and
truncates it to 5 entries; membership is unchanged by that. -/
def swapCandidates (cfg : Config) (tt : List Course) (c : Course) : List Course :=
  cfg.allCourses.filter (fun cand =>
    !(decide (cand.no = c.no)) &&
      !(decide (cand.no ∈ tt.map (fun x => x.no))) &&
      is_course_valid cfg cand &&
      conflicts_with cand c &&
      (tt.filter (fun x => !(decide (x.no = c.no)))).all
        (fun r => !(conflicts_with cand r)))

/-- The recognized configuration keys read by `PatternBasedOptimizer.__init__`,
each `none` when the key is missing from `user_settings.json`. The nested
`course_level_constraints` values are flattened here; they are read with
`get` defaults and cannot fail, so they are not stored below. -/
structure RawSettings where
  mandatory_nos : Option (List String)
  max_credits : Option Int
  min_credits : Option Int
  desired_nos : Option (List String)
  unavailable_slots : Option (List (String × Nat))
  off_days : Option (List String)
  excluded_nos : Option (List String)
  temperature : Option Int
  max_candidates : Option Int
deriving Repr, DecidableEq

/-- Model of the Python test `s.isalpha() and s.isupper()` used to split
`excluded_nos` (for the uppercase ASCII tokens it is applied to): non-empty
and all characters uppercase letters. -/
def isUpperAlpha (s : String) : Bool :=
  !(decide (s = "")) && s.toList.all (fun ch => ch.isUpper)

/-- The attributes stored by `PatternBasedOptimizer.__init__` for the keys
claimed to be clamped or defaulted. -/
structure StoredSettings where
  mandatoryNos : List String
  maxCredits : Option Int
  minCredits : Option Int
  desiredNos : List String
  unavailableSlots : List (String × Nat)
  excludedExactNos : List String
  excludedPrefixes : List String
  temperature : Option Int
  maxCandidates : Option Int
deriving Repr, DecidableEq

/-- Model of the attribute assignments of `PatternBasedOptimizer.__init__`:
every key is read with `get`, most with a default, but `desired_nos` is read
with no default and passed to `set(...)`, which raises `TypeError` on `None`;
`temperature` and `max_candidates` are stored verbatim with no clamping and no
default. -/
def initOptimizer (raw : RawSettings) : Except String StoredSettings :=
  match raw.desired_nos with
  | none => Except.error "TypeError"
  | some desired =>
    let rawExcluded := raw.excluded_nos.getD []
    Except.ok
      { mandatoryNos := raw.mandatory_nos.getD []
        maxCredits := raw.max_credits
        minCredits := raw.min_credits
        desiredNos := desired
        unavailableSlots := raw.unavailable_slots.getD []
        excludedExactNos := rawExcluded.filter (fun s => !(isUpperAlpha s))
        excludedPrefixes := rawExcluded.filter (fun s => isUpperAlpha s)
        temperature := raw.temperature
        maxCandidates := raw.max_candidates }

/-- The spec's scoring sentence read literally, with the exact-match bonus
and the within-100 bonus as independent additive conditions. Stated from the
spec's words for comparison with `scoreCourse`. -/
def scoreCourseSpecAdditive (cfg : Config) (c : Course) : Int :=
  1 + (if decide (c.subject ∈ cfg.prioritySubjects) then 10 else 0) +
    (match List.lookup c.subject cfg.levelPriorities with
      | none => 0
      | some p => if c.level = p then 5 else 0) +
    (match List.lookup c.subject cfg.levelPriorities with
      | none => 0
      | some p => if (c.level - p).natAbs ≤ 100 then 2 else 0)

/-- The spec's scoring sentence with the two level bonuses read as mutually
exclusive: plus 5 on an exact match, otherwise plus 2 within 100. Stated from
the spec's words for comparison with `scoreCourse`. -/
def scoreCourseSpecExclusive (cfg : Config) (c : Course) : Int :=
  1 + (if decide (c.subject ∈ cfg.prioritySubjects) then 10 else 0) +
    (match List.lookup c.subject cfg.levelPriorities with
      | none => 0
      | some p =>
        if c.level = p then 5
        else if (c.level - p).natAbs ≤ 100 then 2 else 0)

/-! ## Concrete instances used as witnesses and counterexamples -/

/-- A zero draw family (a fixed random source). -/
def usZero : Nat → Course → ℚ := fun _ _ => 0

/-- A mandatory course meeting on Sunday period 1. -/
def m1c : Course :=
  { no := "MAN101", credits := 2, schedule := [("日", 1, false)],
    subject := "MAN", level := 100 }

/-- An elective course meeting on Monday period 1. -/
def c1c : Course :=
  { no := "MAT101", credits := 2, schedule := [("月", 1, false)],
    subject := "MAT", level := 100 }

/-- A small complete configuration: one mandatory course sitting on an off
day that is also an unavailable slot, one pattern course, a tight credit
band. -/
def cfg1 : Config :=
  { allCourses := [m1c, c1c], mandatoryNos := ["MAN101"], maxCredits := 4,
    minCredits := 4, desiredNos := [], unavailableSlots := [("日", 1)],
    offDays := ["日"], excludedExactNos := [], excludedPrefixes := [],
    majorCodes := [], majorMinLevel := 0, majorMaxLevel := 9999,
    otherMinLevel := 0, otherMaxLevel := 9999, prioritySubjects := [],
    levelPriorities := [], temperature := 0, maxCandidates := 5,
    patterns := [("P1", { schedule := [("月", 1)], courses := ["MAT101"] })] }

/-- A configuration whose only mandatory id is absent from the catalog. -/
def cfg4 : Config :=
  { cfg1 with
    allCourses := [c1c]
    mandatoryNos := ["GHO100"]
    offDays := []
    unavailableSlots := []
    minCredits := 2
    maxCredits := 2 }

/-- A 10-credit mandatory course. -/
def m5c : Course :=
  { no := "MAN201", credits := 10, schedule := [("月", 1, false)],
    subject := "MAN", level := 200 }

/-- A 2-credit elective on Tuesday period 1. -/
def c5c : Course :=
  { no := "ENG101", credits := 2, schedule := [("火", 1, false)],
    subject := "ENG", level := 100 }

/-- A configuration whose mandatory course alone exceeds the credit
maximum. -/
def cfg5 : Config :=
  { cfg1 with
    allCourses := [m5c, c5c]
    mandatoryNos := ["MAN201"]
    maxCredits := 5
    minCredits := 0
    unavailableSlots := []
    offDays := []
    patterns := [("P1", { schedule := [("火", 1)], courses := ["ENG101"] })] }

/-- A mandatory course on Monday period 1. -/
def mAc : Course :=
  { no := "MAA101", credits := 2, schedule := [("月", 1, false)],
    subject := "MAA", level := 100 }

/-- A second mandatory course on the same slot. -/
def mBc : Course :=
  { no := "MAB101", credits := 2, schedule := [("月", 1, false)],
    subject := "MAB", level := 100 }

/-- A configuration whose two mandatory courses conflict with each other. -/
def cfgConf : Config :=
  { cfg1 with
    allCourses := [mAc, mBc]
    mandatoryNos := ["MAA101", "MAB101"]
    unavailableSlots := []
    offDays := []
    patterns := [("P1", { schedule := [("火", 1)], courses := [] })] }

/-- Timetable member on Monday period 1 for the swap example. -/
def cA9 : Course :=
  { no := "AAA101", credits := 2, schedule := [("月", 1, false)],
    subject := "AAA", level := 100 }

/-- Timetable member on Tuesday period 1 for the swap example. -/
def cB9 : Course :=
  { no := "BBB101", credits := 2, schedule := [("火", 1, false)],
    subject := "BBB", level := 100 }

/-- A swap candidate clashing only with `cA9`. -/
def cX9 : Course :=
  { no := "CCC101", credits := 2, schedule := [("月", 1, false)],
    subject := "CCC", level := 100 }

/-- A configuration for the swap example. -/
def cfg9 : Config :=
  { cfg1 with
    allCourses := [cA9, cB9, cX9]
    mandatoryNos := [] }

/-- A configuration with a prioritized subject and a priority level that
`c1c` matches exactly. -/
def cfg7 : Config :=
  { cfg1 with
    prioritySubjects := ["MAT"]
    levelPriorities := [("MAT", 100)] }

/-- A prioritized-subject course for the temperature-100 ordering example. -/
def ca6 : Course :=
  { no := "CA1", credits := 2, schedule := [("月", 1, false)],
    subject := "MAT", level := 100 }

/-- An unprioritized course for the temperature-100 ordering example. -/
def cb6 : Course :=
  { no := "CB1", credits := 2, schedule := [("火", 1, false)],
    subject := "ENG", level := 100 }

/-- A temperature-100 configuration in which subject `MAT` is prioritized. -/
def cfg6 : Config :=
  { cfg1 with
    allCourses := [ca6, cb6]
    mandatoryNos := []
    temperature := 100
    prioritySubjects := ["MAT"] }

/-- The same configuration with no prioritized subject (all scores 1). -/
def cfg6b : Config :=
  { cfg6 with prioritySubjects := [] }

/-- A fixed draw function for the temperature-100 ordering example. -/
def u6 : Course → ℚ := fun c => if c.no = "CB1" then 3 / 10 else 0

/-- A full settings object with out-of-range `temperature` and
`max_candidates`. -/
def rawFull : RawSettings :=
  { mandatory_nos := some [], max_credits := some 10, min_credits := some 0,
    desired_nos := some [], unavailable_slots := some [], off_days := some [],
    excluded_nos := some [], temperature := some 150, max_candidates := some 50 }

/-- The same settings object with the `desired_nos` key missing. -/
def rawMissing : RawSettings :=
  { rawFull with desired_nos := none }

/-- The stored attributes produced from `rawFull`. -/
def storedFull : StoredSettings :=
  { mandatoryNos := [], maxCredits := some 10, minCredits := some 0,
    desiredNos := [], unavailableSlots := [], excludedExactNos := [],
    excludedPrefixes := [], temperature := some 150, maxCandidates := some 50 }

/-! ## Helper lemmas -/

/-- Invariant preservation along a left fold. -/
theorem foldl_inv {α σ : Type} (f : σ → α → σ) (P : σ → Prop) :
    ∀ (l : List α) (s : σ), P s → (∀ t a, a ∈ l → P t → P (f t a)) →
      P (l.foldl f s) := by
  intro l
  induction l with
  | nil => intro s h0 _; exact h0
  | cons a t ih =>
    intro s h0 hstep
    exact ih (f s a) (hstep s a (List.mem_cons_self a t) h0)
      (fun s b hb => hstep s b (List.mem_cons_of_mem a hb))

/-- Membership characterization of `conflicts_with`. -/
theorem conflicts_with_true_iff (a b : Course) :
    conflicts_with a b = true ↔ ∃ s, s ∈ slots a ∧ s ∈ slots b := by
  simp [conflicts_with]

/-- Conflict is symmetric: the slot sets intersect or not, regardless of
order. -/
theorem conflicts_with_comm (a b : Course) :
    conflicts_with a b = conflicts_with b a := by
  rw [Bool.eq_iff_iff, conflicts_with_true_iff, conflicts_with_true_iff]
  constructor
  · rintro ⟨s, h1, h2⟩; exact ⟨s, h2, h1⟩
  · rintro ⟨s, h1, h2⟩; exact ⟨s, h2, h1⟩

/-- The pairwise reading of `_check_conflict` returning `False`. -/
theorem check_conflict_eq_false_iff (tt : List Course) :
    check_conflict tt = false ↔
      tt.Pairwise (fun a b => conflicts_with a b = false) := by
  induction tt with
  | nil => simp [check_conflict]
  | cons c rest ih =>
    simp [check_conflict, ih, List.pairwise_cons, List.any_eq_false]

/-- A conflict-free timetable stays conflict-free on any sublist. -/
theorem check_conflict_sublist {l₁ l₂ : List Course} (h : l₁.Sublist l₂)
    (h2 : check_conflict l₂ = false) : check_conflict l₁ = false := by
  rw [check_conflict_eq_false_iff] at h2 ⊢
  exact h2.sublist h

/-- Appending one course keeps a timetable conflict-free exactly when the
timetable was conflict-free and the course conflicts with no member. -/
theorem check_conflict_append_singleton (tt : List Course) (c : Course) :
    check_conflict (tt ++ [c]) = false ↔
      check_conflict tt = false ∧ ∀ x ∈ tt, conflicts_with x c = false := by
  rw [check_conflict_eq_false_iff, check_conflict_eq_false_iff,
    List.pairwise_append]
  simp

/-- Credits of an extended timetable. -/
theorem sumCredits_append (l₁ l₂ : List Course) :
    sumCredits (l₁ ++ l₂) = sumCredits l₁ + sumCredits l₂ := by
  simp [sumCredits]

/-- Credits are monotone along sublists. -/
theorem sumCredits_sublist_le {l₁ l₂ : List Course} (h : l₁.Sublist l₂) :
    sumCredits l₁ ≤ sumCredits l₂ := by
  induction h with
  | slnil => exact Nat.le_refl _
  | cons a h ih =>
    simp only [sumCredits, List.map_cons, List.sum_cons] at ih ⊢; omega
  | cons₂ a h ih =>
    simp only [sumCredits, List.map_cons, List.sum_cons] at ih ⊢; omega

/-- With the unavailable-slot restriction ignored, `_is_schedule_allowed`
reduces to the off-day filter alone: off days remain hard. -/
theorem is_schedule_allowed_loose (cfg : Config)
    (sched : List (String × Nat × Bool)) (mo : Bool) :
    is_schedule_allowed cfg sched true mo =
      sched.all (fun s => !(decide (s.1 ∈ cfg.offDays))) := by
  simp [is_schedule_allowed]

/-- In the strict mode used by the greedy fill, `_is_schedule_allowed` checks
exactly the off days and the unavailable slots. -/
theorem is_schedule_allowed_strict (cfg : Config)
    (sched : List (String × Nat × Bool)) :
    is_schedule_allowed cfg sched false false =
      sched.all (fun s =>
        !(decide (s.1 ∈ cfg.offDays)) &&
          !(decide ((s.1, s.2.1) ∈ cfg.unavailableSlots))) := by
  simp [is_schedule_allowed]

/-- The loop invariant of `greedy_fill`: the credit counter tracks the
timetable, the timetable extends the base only by schedule-allowed courses,
conflict-freeness is preserved, and every collected snapshot satisfies the
credit band, is conflict-free (when the base is), and extends the base only
by schedule-allowed courses. -/
def FillInv (cfg : Config) (ig : Bool) (base : List Course) (st : FillState) :
    Prop :=
  st.credits = sumCredits st.timetable ∧
  (∃ ex, st.timetable = base ++ ex ∧
    ∀ c ∈ ex, is_schedule_allowed cfg c.schedule ig false = true) ∧
  (check_conflict base = false → check_conflict st.timetable = false) ∧
  ∀ v ∈ st.variations,
    creditBand cfg (sumCredits v) = true ∧
    (check_conflict base = false → check_conflict v = false) ∧
    ∃ ex, v = base ++ ex ∧
      ∀ c ∈ ex, is_schedule_allowed cfg c.schedule ig false = true

/-- Each `greedy_fill` iteration preserves the loop invariant. -/
theorem greedyStep_inv (cfg : Config) (ig : Bool) (base : List Course)
    (st : FillState) (c : Course) (h : FillInv cfg ig base st) :
    FillInv cfg ig base (greedyStep cfg ig st c) := by
  obtain ⟨hA, ⟨ex, hex, hallow⟩, hC, hD⟩ := h
  unfold greedyStep
  split
  · exact ⟨hA, ⟨ex, hex, hallow⟩, hC, hD⟩
  split
  · exact ⟨hA, ⟨ex, hex, hallow⟩, hC, hD⟩
  split
  · exact ⟨hA, ⟨ex, hex, hallow⟩, hC, hD⟩
  next h1 h2 h3 =>
    rw [Bool.not_eq_true] at h3
    replace h1 : is_schedule_allowed cfg c.schedule ig false = true := by
      simpa using h1
    have hcr : st.credits + c.credits = sumCredits (st.timetable ++ [c]) := by
      rw [sumCredits_append, hA]; simp [sumCredits]
    refine ⟨hcr, ⟨ex ++ [c], by rw [hex, List.append_assoc], ?_⟩,
      fun _ => h3, ?_⟩
    · intro x hx
      rcases List.mem_append.mp hx with hx | hx
      · exact hallow x hx
      · rw [List.mem_singleton.mp hx]; exact h1
    · intro v hv
      by_cases hband : creditBand cfg (st.credits + c.credits) = true
      · simp only [hband, if_true] at hv
        rcases List.mem_append.mp hv with hv | hv
        · exact hD v hv
        · rw [List.mem_singleton.mp hv]
          refine ⟨by rw [← hcr]; exact hband, fun _ => h3,
            ex ++ [c], by rw [hex, List.append_assoc], ?_⟩
          intro x hx
          rcases List.mem_append.mp hx with hx | hx
          · exact hallow x hx
          · rw [List.mem_singleton.mp hx]; exact h1
      · rw [Bool.not_eq_true] at hband
        simp [hband] at hv
        exact hD v hv

/-- The combined specification of `greedy_fill`: the final timetable extends
the base only by schedule-allowed courses and stays conflict-free, and every
emitted variation satisfies the credit band, stays conflict-free, and extends
the base only by schedule-allowed courses. -/
theorem greedyFill_spec (cfg : Config) (u : Course → ℚ) (base : List Course)
    (ig : Bool) :
    (∃ ex, (greedyFill cfg u base ig).1 = base ++ ex ∧
      ∀ c ∈ ex, is_schedule_allowed cfg c.schedule ig false = true) ∧
    (check_conflict base = false →
      check_conflict (greedyFill cfg u base ig).1 = false) ∧
    ∀ v ∈ (greedyFill cfg u base ig).2,
      creditBand cfg (sumCredits v) = true ∧
      (check_conflict base = false → check_conflict v = false) ∧
      ∃ ex, v = base ++ ex ∧
        ∀ c ∈ ex, is_schedule_allowed cfg c.schedule ig false = true := by
  have hinit : FillInv cfg ig base (initFillState cfg base) := by
    unfold FillInv initFillState
    refine ⟨rfl, ⟨[], by simp, by simp⟩, fun h => h, ?_⟩
    intro v hv
    by_cases hb : creditBand cfg (sumCredits base) = true
    · simp only [hb, if_true, List.mem_singleton] at hv
      subst hv
      exact ⟨hb, fun h => h, [], by simp, by simp⟩
    · rw [Bool.not_eq_true] at hb
      simp [hb] at hv
  have h := foldl_inv (greedyStep cfg ig) (FillInv cfg ig base)
    (prepareCandidates cfg u (fillCandidatePool cfg base))
    (initFillState cfg base) hinit
    (fun t a _ ht => greedyStep_inv cfg ig base t a ht)
  exact ⟨h.2.1, h.2.2.1, h.2.2.2⟩

/-- A fill variation as a sublist: the base is contained in it. -/
theorem greedyFill_base_sublist {cfg : Config} {u : Course → ℚ}
    {base : List Course} {ig : Bool} {v : List Course}
    (hv : v ∈ (greedyFill cfg u base ig).2) : base.Sublist v := by
  obtain ⟨_, _, ex, hex, _⟩ := (greedyFill_spec cfg u base ig).2.2 v hv
  rw [hex]
  exact List.sublist_append_left base ex

/-- Case analysis of `_fill_remaining_credits`: the relaxed pass runs exactly
when the strict pass collected no variation, and starts from the strict
pass's final timetable. -/
theorem fillRemainingCredits_cases (cfg : Config) (u1 u2 : Course → ℚ)
    (init : List Course) :
    fillRemainingCredits cfg u1 u2 init =
      if (greedyFill cfg u1 init false).2.isEmpty then
        (greedyFill cfg u2 (greedyFill cfg u1 init false).1 true).2
      else (greedyFill cfg u1 init false).2 := by
  unfold fillRemainingCredits
  by_cases h : (greedyFill cfg u1 init false).2.isEmpty <;> simp [h]

/-- The combined specification of `_fill_remaining_credits`: every output
variation satisfies the credit band, is conflict-free when the initial
timetable is, and extends the initial timetable only by courses avoiding the
off days. -/
theorem fillRemainingCredits_spec (cfg : Config) (u1 u2 : Course → ℚ)
    (init : List Course) :
    ∀ v ∈ fillRemainingCredits cfg u1 u2 init,
      creditBand cfg (sumCredits v) = true ∧
      (check_conflict init = false → check_conflict v = false) ∧
      ∃ ex, v = init ++ ex ∧
        ∀ c ∈ ex, c.schedule.all (fun s => !(decide (s.1 ∈ cfg.offDays))) = true := by
  intro v hv
  rw [fillRemainingCredits_cases] at hv
  by_cases h : (greedyFill cfg u1 init false).2.isEmpty
  · simp only [h, if_true] at hv
    obtain ⟨hband, hconf, ex2, hex2, hallow2⟩ :=
      (greedyFill_spec cfg u2 (greedyFill cfg u1 init false).1 true).2.2 v hv
    obtain ⟨⟨ex1, hex1, hallow1⟩, hconf1, _⟩ := greedyFill_spec cfg u1 init false
    refine ⟨hband, fun hi => hconf (hconf1 hi), ex1 ++ ex2, ?_, ?_⟩
    · rw [hex2, hex1, List.append_assoc]
    · intro c hc
      rcases List.mem_append.mp hc with hc | hc
      · have := hallow1 c hc
        rw [is_schedule_allowed_strict, List.all_eq_true] at this
        rw [List.all_eq_true]
        intro s hs
        have h2 := this s hs
        simp only [Bool.and_eq_true] at h2
        exact h2.1
      · have := hallow2 c hc
        rw [is_schedule_allowed_loose, List.all_eq_true] at this
        rw [List.all_eq_true]
        exact this
  · simp only [h, if_false] at hv
    obtain ⟨hband, hconf, ex, hex, hallow⟩ :=
      (greedyFill_spec cfg u1 init false).2.2 v hv
    refine ⟨hband, hconf, ex, hex, ?_⟩
    intro c hc
    have := hallow c hc
    rw [is_schedule_allowed_strict, List.all_eq_true] at this
    rw [List.all_eq_true]
    intro s hs
    have h2 := this s hs
    simp only [Bool.and_eq_true] at h2
    exact h2.1

/-- The initial timetable of a pattern: it contains the mandatory courses and
is conflict-free whenever they are. -/
theorem buildInitialTimetable_spec (cfg : Config) (resolved : List Course) :
    (mandatoryCourses cfg).Sublist (buildInitialTimetable cfg resolved) ∧
    (check_conflict (mandatoryCourses cfg) = false →
      check_conflict (buildInitialTimetable cfg resolved) = false) := by
  unfold buildInitialTimetable
  refine foldl_inv _
    (fun tt => (mandatoryCourses cfg).Sublist tt ∧
      (check_conflict (mandatoryCourses cfg) = false → check_conflict tt = false))
    resolved (mandatoryCourses cfg) ⟨List.Sublist.refl _, fun h => h⟩ ?_
  rintro t a _ ⟨h1, h2⟩
  split
  · exact ⟨h1, h2⟩
  split
  · exact ⟨h1, h2⟩
  next _ h4 =>
    rw [Bool.not_eq_true] at h4
    exact ⟨h1.trans (List.sublist_append_left t [a]), fun _ => h4⟩

/-- The de-duplication step only ever appends the inspected variation. -/
theorem dedupStep_inv (cfg : Config) (Q : List Course → Prop) (st : DedupState)
    (tt : List Course) (hQ : Q tt) (h : ∀ x ∈ st.acc, Q x) :
    ∀ x ∈ (dedupStep cfg st tt).acc, Q x := by
  simp only [dedupStep]
  split
  · exact h
  split
  · exact h
  · intro x hx
    simp only [] at hx
    rcases List.mem_append.mp hx with hx | hx
    · exact h x hx
    · rw [List.mem_singleton.mp hx]; exact hQ

/-- The outer candidate loop only ever collects fill variations. -/
theorem runKeyStep_inv (cfg : Config) (us : Nat → Course → ℚ)
    (scored : List (String × Int × List Course)) (Q : List Course → Prop)
    (h : ∀ u1 u2 resolved, ∀ v ∈ fillRemainingCredits cfg u1 u2
      (buildInitialTimetable cfg resolved), Q v)
    (st : DedupState) (jk : Nat × String) (hst : ∀ x ∈ st.acc, Q x) :
    ∀ x ∈ (runKeyStep cfg us scored st jk).acc, Q x := by
  unfold runKeyStep
  split
  · exact hst
  · exact foldl_inv (dedupStep cfg) (fun st2 => ∀ x ∈ st2.acc, Q x) _ st hst
      (fun t a ha ht => dedupStep_inv cfg Q t a (h _ _ _ a ha) ht)

/-- Every candidate collected by `run`'s loop is a variation emitted by
`_fill_remaining_credits` on the initial timetable of some pattern. -/
theorem runCandidates_all (cfg : Config) (us : Nat → Course → ℚ)
    (keys : List String) (scored : List (String × Int × List Course))
    (Q : List Course → Prop)
    (h : ∀ u1 u2 resolved, ∀ v ∈ fillRemainingCredits cfg u1 u2
      (buildInitialTimetable cfg resolved), Q v) :
    ∀ v ∈ runCandidates cfg us keys scored, Q v := by
  intro v hv
  unfold runCandidates at hv
  exact foldl_inv (runKeyStep cfg us scored) (fun st => ∀ x ∈ st.acc, Q x)
    keys.enum { seen := [], acc := [], stopped := false }
    (by intro x hx; simp at hx)
    (fun t a _ ht => runKeyStep_inv cfg us scored Q h t a ht) v hv

/-- Every candidate in `run`'s output is a fill variation of some pattern,
produced while the mandatory set was known conflict-free. -/
theorem run_all (cfg : Config) (us : Nat → Course → ℚ) (Q : List Course → Prop)
    (h : check_conflict (mandatoryCourses cfg) = false →
      ∀ u1 u2 resolved, ∀ v ∈ fillRemainingCredits cfg u1 u2
        (buildInitialTimetable cfg resolved), Q v) :
    ∀ v ∈ (run cfg us).candidates, Q v := by
  intro v hv
  rcases hsel : selectBestPatterns cfg (scorePatterns cfg us) with _ | keys
  · simp only [run, hsel] at hv; simp at hv
  · simp only [run, hsel] at hv
    by_cases hk : keys.isEmpty
    · simp [hk] at hv
    · rw [Bool.not_eq_true] at hk
      simp only [hk, Bool.false_eq_true, if_false] at hv
      by_cases hcc : check_conflict (mandatoryCourses cfg) = true
      · simp [hcc] at hv
      · rw [Bool.not_eq_true] at hcc
        simp only [hcc, Bool.false_eq_true, if_false] at hv
        exact runCandidates_all cfg us keys (scorePatterns cfg us) Q (h hcc) v hv

/-! ## Claims -/

/-- C1: every timetable candidate produced by the optimizer (every variation
emitted by the greedy fill that reaches the output set of `run`) is mutually
conflict-free: two distinct member courses never share a (weekday, period)
slot, the exception flag ignored, as `conflicts_with` checks. -/
theorem claim1_no_conflict_invariant (cfg : Config) (us : Nat → Course → ℚ)
    (tt : List Course) (htt : tt ∈ (run cfg us).candidates) :
    ∀ a ∈ tt, ∀ b ∈ tt, a ≠ b → conflicts_with a b = false := by
  have h : check_conflict tt = false :=
    run_all cfg us (fun v => check_conflict v = false) ?_ tt htt
  · rw [check_conflict_eq_false_iff] at h
    intro a ha b hb hab
    exact List.Pairwise.forall
      (fun x y hxy => by rw [conflicts_with_comm]; exact hxy) h ha hb hab
  · intro hcc u1 u2 resolved v hv
    exact (fillRemainingCredits_spec cfg u1 u2 _ v hv).2.1
      ((buildInitialTimetable_spec cfg resolved).2 hcc)

/-- Witness for C1: in the concrete run of `cfg1`, the two members of the
produced candidate do not conflict. -/
theorem claim1_witness : conflicts_with m1c c1c = false :=
  claim1_no_conflict_invariant cfg1 usZero [m1c, c1c] (by decide) m1c
    (by decide) c1c (by decide) (by decide)

/-- C2: every satisfying snapshot recorded by `greedy_fill` (including the
pre-fill starting point when it qualifies), and hence every candidate in the
output of `run`, has a total credit sum inside the inclusive band from
`minCredits` to `maxCredits`. -/
theorem claim2_credit_band_invariant (cfg : Config) :
    (∀ (u : Course → ℚ) (base : List Course) (ig : Bool),
      ∀ v ∈ (greedyFill cfg u base ig).2,
        cfg.minCredits ≤ (sumCredits v : Int) ∧
          (sumCredits v : Int) ≤ cfg.maxCredits) ∧
    (∀ us : Nat → Course → ℚ, ∀ v ∈ (run cfg us).candidates,
      cfg.minCredits ≤ (sumCredits v : Int) ∧
        (sumCredits v : Int) ≤ cfg.maxCredits) := by
  have hband : ∀ n : Nat, creditBand cfg n = true →
      cfg.minCredits ≤ (n : Int) ∧ (n : Int) ≤ cfg.maxCredits := by
    intro n h
    simpa [creditBand] using h
  constructor
  · intro u base ig v hv
    exact hband _ ((greedyFill_spec cfg u base ig).2.2 v hv).1
  · intro us v hv
    refine hband _
      (run_all cfg us (fun w => creditBand cfg (sumCredits w) = true) ?_ v hv)
    intro _ u1 u2 resolved w hw
    exact (fillRemainingCredits_spec cfg u1 u2 _ w hw).1

/-- Witness for C2: the candidate produced by the concrete run of `cfg1`
sums to 4 credits inside the band [4, 4]. -/
theorem claim2_witness :
    cfg1.minCredits ≤ (sumCredits [m1c, c1c] : Int) ∧
      (sumCredits [m1c, c1c] : Int) ≤ cfg1.maxCredits :=
  (claim2_credit_band_invariant cfg1).2 usZero [m1c, c1c] (by decide)

/-- C3: the relaxed fallback pass of `_fill_remaining_credits` runs exactly
when the strict pass produced zero satisfying variations, and starts from the
strict pass's final timetable; the relaxed schedule test drops only the
unavailable-slot restriction, the off days staying hard, while the strict
test checks exactly the off days and the unavailable slots. -/
theorem claim3_relaxed_fallback (cfg : Config) (u1 u2 : Course → ℚ)
    (init : List Course) :
    (fillRemainingCredits cfg u1 u2 init =
      if (greedyFill cfg u1 init false).2.isEmpty then
        (greedyFill cfg u2 (greedyFill cfg u1 init false).1 true).2
      else (greedyFill cfg u1 init false).2) ∧
    (∀ (sched : List (String × Nat × Bool)) (mo : Bool),
      is_schedule_allowed cfg sched true mo =
        sched.all (fun s => !(decide (s.1 ∈ cfg.offDays)))) ∧
    (∀ sched : List (String × Nat × Bool),
      is_schedule_allowed cfg sched false false =
        sched.all (fun s =>
          !(decide (s.1 ∈ cfg.offDays)) &&
            !(decide ((s.1, s.2.1) ∈ cfg.unavailableSlots)))) :=
  ⟨fillRemainingCredits_cases cfg u1 u2 init,
    fun sched mo => is_schedule_allowed_loose cfg sched mo,
    fun sched => is_schedule_allowed_strict cfg sched⟩

/-- C9: a reported swap candidate `x` for a non-mandatory member `c` of a
conflict-free timetable yields a conflict-free timetable when inserted in
place of `c`. -/
theorem claim9_swap_correct (cfg : Config) (tt : List Course) (c x : Course)
    (hcc : check_conflict tt = false) (hmem : c ∈ tt)
    (hnm : c.no ∉ cfg.mandatoryNos) (hx : x ∈ swapCandidates cfg tt c) :
    check_conflict
      ((tt.filter (fun r => !(decide (r.no = c.no)))) ++ [x]) = false := by
  rw [swapCandidates, List.mem_filter] at hx
  obtain ⟨-, hpred⟩ := hx
  simp only [Bool.and_eq_true] at hpred
  have hall := hpred.2
  rw [List.all_eq_true] at hall
  rw [check_conflict_append_singleton]
  refine ⟨check_conflict_sublist (List.filter_sublist tt) hcc, ?_⟩
  intro r hr
  have hxr := hall r hr
  rw [conflicts_with_comm]
  simpa using hxr

/-- Witness for C9: replacing `cA9` by its reported swap candidate `cX9` in
the timetable `[cA9, cB9]` gives a conflict-free timetable. -/
theorem claim9_witness :
    check_conflict
      (([cA9, cB9].filter (fun r => !(decide (r.no = cA9.no)))) ++ [cX9]) = false :=
  claim9_swap_correct cfg9 [cA9, cB9] cA9 cX9 (by decide) (by decide)
    (by decide) (by decide)

/-- C10: mandatory courses are exempt from the off-day and unavailable-slot
restrictions: the mandatory courses are contained in every initial timetable
with no slot or credit check, the schedule-allowed test only gates the
courses the greedy fill appends beyond its base, and in the concrete run of
`cfg1` the produced candidate occupies, through the mandatory course `m1c`,
a slot on an off day that is also an unavailable slot. -/
theorem claim10_mandatory_exempt :
    (∀ (cfg : Config) (resolved : List Course),
      (mandatoryCourses cfg).Sublist (buildInitialTimetable cfg resolved)) ∧
    (∀ (cfg : Config) (u : Course → ℚ) (base : List Course) (ig : Bool),
      ∃ ex, (greedyFill cfg u base ig).1 = base ++ ex ∧
        ∀ c ∈ ex, is_schedule_allowed cfg c.schedule ig false = true) ∧
    ((run cfg1 usZero).candidates = [[m1c, c1c]] ∧
      m1c.no ∈ cfg1.mandatoryNos ∧ ("日", 1, false) ∈ m1c.schedule ∧
      "日" ∈ cfg1.offDays ∧ ("日", 1) ∈ cfg1.unavailableSlots) := by
  refine ⟨fun cfg resolved => (buildInitialTimetable_spec cfg resolved).1,
    fun cfg u base ig => (greedyFill_spec cfg u base ig).1, ?_⟩
  exact ⟨by decide, by decide, by decide, by decide, by decide⟩

/-- Witness for C10: the containment instantiated at the concrete
configuration `cfg1`. -/
theorem claim10_witness :
    (mandatoryCourses cfg1).Sublist (buildInitialTimetable cfg1 []) :=
  claim10_mandatory_exempt.1 cfg1 []

/-- The conflict check inside `_select_best_patterns` short-circuits the
whole selection. -/
theorem selectBestPatterns_conflict (cfg : Config)
    (scored : List (String × Int × List Course))
    (h : check_conflict (mandatoryCourses cfg) = true) :
    selectBestPatterns cfg scored = none := by
  simp [selectBestPatterns, h]

/-- Every run candidate contains the resolved mandatory courses. -/
theorem run_candidates_mandatory_sublist (cfg : Config)
    (us : Nat → Course → ℚ) (tt : List Course)
    (htt : tt ∈ (run cfg us).candidates) :
    (mandatoryCourses cfg).Sublist tt := by
  refine run_all cfg us (fun v => (mandatoryCourses cfg).Sublist v) ?_ tt htt
  intro _ u1 u2 resolved v hv
  obtain ⟨-, -, ex, hex, -⟩ := fillRemainingCredits_spec cfg u1 u2 _ v hv
  rw [hex]
  exact (buildInitialTimetable_spec cfg resolved).1.trans
    (List.sublist_append_left _ ex)

/-- C4 counterexample: in `cfg4` the mandatory id `GHO100` is absent from the
catalog, the resolved mandatory set is conflict-free and within budget, yet
the produced candidate does not carry the id among its members. -/
theorem claim4_counterexample :
    check_conflict (mandatoryCourses cfg4) = false ∧
    (sumCredits (mandatoryCourses cfg4) : Int) ≤ cfg4.maxCredits ∧
    "GHO100" ∈ cfg4.mandatoryNos ∧
    (run cfg4 usZero).candidates = [[c1c]] ∧
    "GHO100" ∉ [c1c].map (fun c => c.no) :=
  ⟨by decide, by decide, by decide, by decide, by decide⟩

/-- C4 (amended): when the resolved mandatory set is conflict-free and within
budget, every produced candidate contains every mandatory course id that
resolves to a catalog course. -/
theorem claim4_mandatory_inclusion (cfg : Config) (us : Nat → Course → ℚ)
    (hcc : check_conflict (mandatoryCourses cfg) = false)
    (hcr : (sumCredits (mandatoryCourses cfg) : Int) ≤ cfg.maxCredits)
    (tt : List Course) (htt : tt ∈ (run cfg us).candidates)
    (no : String) (hno : no ∈ cfg.mandatoryNos)
    (hres : (courseMap cfg no).isSome = true) :
    no ∈ tt.map (fun c => c.no) := by
  have hsubl := run_candidates_mandatory_sublist cfg us tt htt
  obtain ⟨c, hc⟩ := Option.isSome_iff_exists.mp hres
  have hcmem : c ∈ mandatoryCourses cfg :=
    List.mem_filterMap.mpr ⟨no, hno, hc⟩
  have hcno : c.no = no := by
    unfold courseMap at hc
    have h2 := List.find?_some hc
    simpa using h2
  exact List.mem_map.mpr ⟨c, hsubl.subset hcmem, hcno⟩

/-- Witness for C4 (amended): the concrete run of `cfg1` carries its
mandatory id among the candidate's members. -/
theorem claim4_witness : "MAN101" ∈ [m1c, c1c].map (fun c => c.no) :=
  claim4_mandatory_inclusion cfg1 usZero (by decide) (by decide) [m1c, c1c]
    (by decide) "MAN101" (by decide) (by decide)

/-- C5 counterexample: in `cfg5` the mandatory set is infeasible by itself
(its 10 credits exceed the maximum of 5), yet the run does not abort: it only
flags the warning and still executes the fill stage, ending with zero
candidates. -/
theorem claim5_counterexample :
    check_conflict (mandatoryCourses cfg5) = false ∧
    (sumCredits (mandatoryCourses cfg5) : Int) > cfg5.maxCredits ∧
    run cfg5 usZero =
      { abortedNoPatterns := false, mandatoryConflictAbort := false,
        creditWarning := true, fillStageRan := true, candidates := [] } :=
  ⟨by decide, by decide, by decide⟩

/-- C5 (amended): if the mandatory courses conflict with each other the run
reports the error and aborts before candidate generation; if instead they
merely exceed the credit maximum, the run only prints the warning and
continues to the fill stage, which then cannot produce any candidate. -/
theorem claim5_mandatory_infeasible (cfg : Config) (us : Nat → Course → ℚ) :
    (check_conflict (mandatoryCourses cfg) = true →
      run cfg us =
        { abortedNoPatterns := true, mandatoryConflictAbort := true,
          creditWarning := false, fillStageRan := false, candidates := [] }) ∧
    (check_conflict (mandatoryCourses cfg) = false →
      (sumCredits (mandatoryCourses cfg) : Int) > cfg.maxCredits →
      (run cfg us).candidates = [] ∧
        ((run cfg us).fillStageRan = true → (run cfg us).creditWarning = true)) := by
  constructor
  · intro h
    simp [run, selectBestPatterns_conflict cfg _ h]
  · intro hcc hover
    have hnone : ∀ v ∈ (run cfg us).candidates, False := by
      refine run_all cfg us (fun _ => False) ?_
      intro _ u1 u2 resolved v hv
      obtain ⟨hband, -, ex, hex, -⟩ := fillRemainingCredits_spec cfg u1 u2 _ v hv
      have hsub : (mandatoryCourses cfg).Sublist v := by
        rw [hex]
        exact (buildInitialTimetable_spec cfg resolved).1.trans
          (List.sublist_append_left _ ex)
      have hle := sumCredits_sublist_le hsub
      have hband2 : cfg.minCredits ≤ (sumCredits v : Int) ∧
          (sumCredits v : Int) ≤ cfg.maxCredits := by
        simpa [creditBand] using hband
      have h3 := hband2.2
      omega
    refine ⟨List.eq_nil_iff_forall_not_mem.mpr (fun x hx => hnone x hx), ?_⟩
    intro hfill
    rcases hsel : selectBestPatterns cfg (scorePatterns cfg us) with _ | keys
    · simp [run, hsel] at hfill
    · by_cases hk : keys.isEmpty
      · simp [run, hsel, hk] at hfill
      · rw [Bool.not_eq_true] at hk
        simp [run, hsel, hk, hcc, hover]

/-- Witness for C5 (amended): the conflict branch at `cfgConf` and the
over-credit branch at `cfg5`. -/
theorem claim5_witness :
    run cfgConf usZero =
      { abortedNoPatterns := true, mandatoryConflictAbort := true,
        creditWarning := false, fillStageRan := false, candidates := [] } ∧
    (run cfg5 usZero).candidates = [] :=
  ⟨(claim5_mandatory_infeasible cfgConf usZero).1 (by decide),
    ((claim5_mandatory_infeasible cfg5 usZero).2 (by decide) (by decide)).1⟩

/-- Sorting a two-element list with the stable descending insertion sort. -/
theorem prepareCandidates_pair (cfg : Config) (u : Course → ℚ) (a b : Course)
    (hD : cfg.desiredNos = []) :
    prepareCandidates cfg u [a, b] =
      if sortKey cfg u a < sortKey cfg u b then [b, a] else [a, b] := by
  simp [prepareCandidates, hD, sortByKeyDesc, insertByKeyDesc]

/-- The sort key of the prioritized course `ca6` at temperature 100. -/
theorem sortKey_ca6 : sortKey cfg6 u6 ca6 = 11 := by
  simp only [sortKey]
  rw [show cfg6.temperature = (100 : Int) from by decide,
    show courseScores cfg6 ca6.no = (11 : Int) from by decide,
    show u6 ca6 = 0 from rfl,
    show (decide (ca6.no ∈ cfg6.desiredNos)) = false from by decide]
  norm_num

/-- The sort key of the unprioritized course `cb6` at temperature 100. -/
theorem sortKey_cb6 : sortKey cfg6 u6 cb6 = 7 := by
  simp only [sortKey]
  rw [show cfg6.temperature = (100 : Int) from by decide,
    show courseScores cfg6 cb6.no = (1 : Int) from by decide,
    show u6 cb6 = 3 / 10 from rfl,
    show (decide (cb6.no ∈ cfg6.desiredNos)) = false from by decide]
  norm_num

/-- The sort key of `ca6` when no subject is prioritized. -/
theorem sortKey_ca6b : sortKey cfg6b u6 ca6 = 1 := by
  simp only [sortKey]
  rw [show cfg6b.temperature = (100 : Int) from by decide,
    show courseScores cfg6b ca6.no = (1 : Int) from by decide,
    show u6 ca6 = 0 from rfl,
    show (decide (ca6.no ∈ cfg6b.desiredNos)) = false from by decide]
  norm_num

/-- The sort key of `cb6` when no subject is prioritized. -/
theorem sortKey_cb6b : sortKey cfg6b u6 cb6 = 7 := by
  simp only [sortKey]
  rw [show cfg6b.temperature = (100 : Int) from by decide,
    show courseScores cfg6b cb6.no = (1 : Int) from by decide,
    show u6 cb6 = 3 / 10 from rfl,
    show (decide (cb6.no ∈ cfg6b.desiredNos)) = false from by decide]
  norm_num

/-- C6 counterexample: at temperature 100 the order produced by
`_prepare_candidates` still depends on the courses' scores: with the same
draws, prioritizing subject `MAT` puts `ca6` first, while removing the
priority puts `cb6` first — the base score term never vanishes, so this is
not a pure unscored shuffle. -/
theorem claim6_counterexample :
    cfg6.temperature = 100 ∧ cfg6b = { cfg6 with prioritySubjects := [] } ∧
    prepareCandidates cfg6 u6 [ca6, cb6] = [ca6, cb6] ∧
    prepareCandidates cfg6b u6 [ca6, cb6] = [cb6, ca6] := by
  refine ⟨by decide, rfl, ?_, ?_⟩
  · rw [prepareCandidates_pair cfg6 u6 ca6 cb6 (by decide), sortKey_ca6,
      sortKey_cb6]
    norm_num
  · rw [prepareCandidates_pair cfg6b u6 ca6 cb6 (by decide), sortKey_ca6b,
      sortKey_cb6b]
    norm_num

/-- C6 (amended): at temperature 100 the desired-course preference term
vanishes and the desired-set filter does not apply, so the ordering is
independent of the desired-course set; but the base score term remains: the
sort key is the course's score plus 20 times its draw, so the order still
depends on the scores. -/
theorem claim6_temperature100 (cfg : Config) (u : Course → ℚ)
    (courses : List Course) (D : List String) (ht : cfg.temperature = 100) :
    prepareCandidates { cfg with desiredNos := D } u courses =
      prepareCandidates { cfg with desiredNos := [] } u courses ∧
    ∀ c : Course, sortKey { cfg with desiredNos := D } u c =
      (courseScores cfg c.no : ℚ) + 20 * u c := by
  have hkey : ∀ (E : List String) (c : Course),
      sortKey { cfg with desiredNos := E } u c =
        (courseScores cfg c.no : ℚ) + 20 * u c := by
    intro E c
    simp only [sortKey]
    have h1 : ({ cfg with desiredNos := E } : Config).temperature = 100 := ht
    have h2 : courseScores { cfg with desiredNos := E } c.no =
        courseScores cfg c.no := rfl
    rw [h2, h1]
    norm_num
    ring
  have hr1 : ((100 : Int) : ℚ) / 100 ≠ 0 := by norm_num
  refine ⟨?_, hkey D⟩
  have hfun : sortKey { cfg with desiredNos := D } u =
      sortKey { cfg with desiredNos := [] } u := by
    funext c
    rw [hkey D c, hkey [] c]
  simp only [prepareCandidates]
  rw [if_neg, if_neg, hfun]
  · rintro ⟨h1, -⟩
    exact h1 rfl
  · rintro ⟨-, h2⟩
    have h3 : (({ cfg with desiredNos := D } : Config).temperature : ℚ) / 100 ≠ 0 := by
      rw [show ({ cfg with desiredNos := D } : Config).temperature = 100 from ht]
      exact hr1
    exact h3 h2

/-- Witness for C6 (amended): at the concrete temperature-100 configuration,
adding a desired id does not change the produced order. -/
theorem claim6_witness :
    prepareCandidates { cfg6 with desiredNos := ["CA1"] } u6 [ca6, cb6] =
      prepareCandidates { cfg6 with desiredNos := [] } u6 [ca6, cb6] :=
  (claim6_temperature100 cfg6 u6 [ca6, cb6] ["CA1"] (by decide)).1

/-- C7 counterexample: for the exact-level-match course `c1c` under `cfg7`
the code scores 16, while the claim's additive reading (both the exact-match
bonus and the within-100 bonus) gives 18: the two bonuses are not
cumulative. -/
theorem claim7_counterexample :
    scoreCourse cfg7 c1c = 16 ∧ scoreCourseSpecAdditive cfg7 c1c = 18 ∧
      (16 : Int) ≠ 18 :=
  ⟨by decide, by decide, by decide⟩

/-- C7 (amended): the score is base 1, plus 10 for a prioritized subject,
plus 5 on an exact priority-level match, otherwise plus 2 when the level is
within 100 of the priority level (the bonuses are mutually exclusive). -/
theorem claim7_score (cfg : Config) (c : Course) :
    scoreCourse cfg c = scoreCourseSpecExclusive cfg c := by
  rcases hl : List.lookup c.subject cfg.levelPriorities with _ | p <;>
    simp only [scoreCourse, scoreCourseSpecExclusive, hl] <;>
    split_ifs <;> omega

/-- C8 counterexample: construction stores `temperature = 150` and
`max_candidates = 50` verbatim, outside the claimed clamping ranges, and
fails outright when the `desired_nos` key is missing. -/
theorem claim8_counterexample :
    initOptimizer rawMissing = Except.error "TypeError" ∧
    initOptimizer rawFull = Except.ok storedFull ∧
    storedFull.temperature = some 150 ∧ ¬((150 : Int) ≤ 100) ∧
    storedFull.maxCandidates = some 50 ∧ ¬((50 : Int) ≤ 10) :=
  ⟨rfl, rfl, rfl, by decide, rfl, by decide⟩

/-- C8 (amended): construction succeeds exactly when `desired_nos` is
present; on success no clamping happens — `temperature` and `max_candidates`
are stored verbatim (`none` when missing) and the other recognized keys fall
back to their `get` defaults. -/
theorem claim8_construction (raw : RawSettings) :
    ((∃ s, initOptimizer raw = Except.ok s) ↔ raw.desired_nos.isSome = true) ∧
    (∀ s, initOptimizer raw = Except.ok s →
      s.temperature = raw.temperature ∧ s.maxCandidates = raw.max_candidates ∧
      s.mandatoryNos = raw.mandatory_nos.getD [] ∧
      s.minCredits = raw.min_credits ∧ s.maxCredits = raw.max_credits ∧
      s.desiredNos = raw.desired_nos.getD [] ∧
      s.unavailableSlots = raw.unavailable_slots.getD []) := by
  rcases hd : raw.desired_nos with _ | d
  · constructor
    · constructor
      · rintro ⟨s, hs⟩
        simp [initOptimizer, hd] at hs
      · intro h
        simp at h
    · intro s hs
      simp [initOptimizer, hd] at hs
  · constructor
    · simp [initOptimizer, hd]
    · intro s hs
      simp only [initOptimizer, hd] at hs
      rw [Except.ok.injEq] at hs
      subst hs
      exact ⟨rfl, rfl, rfl, rfl, rfl, rfl, rfl⟩

/-- Witness for C8 (amended): the stored values of the concrete full
settings object are verbatim copies, with the defaults applied. -/
theorem claim8_witness :
    storedFull.temperature = rawFull.temperature ∧
    storedFull.maxCandidates = rawFull.max_candidates ∧
    storedFull.mandatoryNos = rawFull.mandatory_nos.getD [] ∧
    storedFull.minCredits = rawFull.min_credits ∧
    storedFull.maxCredits = rawFull.max_credits ∧
    storedFull.desiredNos = rawFull.desired_nos.getD [] ∧
    storedFull.unavailableSlots = rawFull.unavailable_slots.getD [] :=
  (claim8_construction rawFull).2 storedFull (by rfl)

end Rishu
